import Mathlib

/-!
Verification of the realtime room-coordination subsystem of the Quiz
repository (server storage layer `MemStorage` and the WebSocket message
handlers in `registerRoutes`), shallowly embedded in Lean 4.

Modelling conventions:
* A JavaScript `Map<string, T>` is an association list `List (String × T)`
  with JS `Map` semantics: `set` on an existing key updates the value in
  place (keeping insertion order), on a new key appends at the end;
  `values()` iterates in insertion order; `get` returns the value at the
  key; `delete` removes the entry.  Keys produced by `randomUUID()` are
  modelled by a monotone counter threaded through the state, which also
  stands in for `new Date()` timestamps (`createdAt` / `joinedAt`): both
  only need freshness resp. monotonicity.
* `currentPlayers` and `maxPlayers` are JS numbers used as integers, so
  they are modelled as `Int` (the spec's "never negative" is a real
  question for `Int`).
* Fields of the records that no handler reads or writes in the modelled
  subsystem (`config`, `questions`, `currentQuestionIndex`, `startedAt`,
  `finishedAt`, participant `score`/`currentAnswers`/`isReady`) are elided.
* A WebSocket transport is an opaque handle modelled as `Nat`; an outbound
  `ws.send` is recorded as a `(handle, message)` pair.  Under the
  single-threaded event model every registry entry's socket is open while
  a handler runs (the close event deletes the entry atomically before any
  later broadcast), so the `readyState === OPEN` guard of the source is
  always true for registry entries and is not modelled separately.
-/

namespace Quiz

/-- JS `Map.get`: value at the first (unique) occurrence of the key. -/
def jmGet {α : Type} (m : List (String × α)) (k : String) : Option α :=
  match m with
  | [] => none
  | (k', v) :: rest => if k' = k then some v else jmGet rest k

/-- JS `Map.set`: update in place if the key exists, else append. -/
def jmSet {α : Type} (m : List (String × α)) (k : String) (v : α) :
    List (String × α) :=
  match m with
  | [] => [(k, v)]
  | (k', v') :: rest =>
      if k' = k then (k', v) :: rest else (k', v') :: jmSet rest k v

/-- JS `Map.delete`: remove the entry at the key. -/
def jmDelete {α : Type} (m : List (String × α)) (k : String) :
    List (String × α) :=
  match m with
  | [] => []
  | (k', v') :: rest =>
      if k' = k then rest else (k', v') :: jmDelete rest k

/-- `GameRoom` record (`shared/schema.ts` / `MemStorage.createGameRoom`). -/
structure GameRoom where
  id : String
  name : String
  hostId : String
  status : String
  maxPlayers : Int
  currentPlayers : Int
  createdAt : Nat
deriving DecidableEq

/-- `GameParticipant` record (`MemStorage.addParticipant`). -/
structure GameParticipant where
  id : String
  roomId : String
  userId : String
  joinedAt : Nat
deriving DecidableEq

/-- An entry of the `connectedPlayers` registry:
`{ ws: WebSocket, userId: string, roomId: string | null }`. -/
structure Player where
  ws : Nat
  userId : String
  roomId : Option String
deriving DecidableEq

/-- The in-memory server state: the `MemStorage` maps that the modelled
handlers touch, the `connectedPlayers` registry (keyed by userId, exactly
as in the source), and the fresh-id/timestamp counter. -/
structure ServerState where
  gameRooms : List (String × GameRoom)
  gameParticipants : List (String × GameParticipant)
  connectedPlayers : List (String × Player)
  nextId : Nat
deriving DecidableEq

/-- `randomUUID()`, modelled as a string of the fresh counter. -/
def freshId (n : Nat) : String := "id" ++ Nat.repr n

/-- JS `x || d` on an optional number: `undefined`/`NaN`/`0` are falsy. -/
def jsOrDefault (x : Option Int) (d : Int) : Int :=
  match x with
  | none => d
  | some v => if v = 0 then d else v

/-- `MemStorage.createGameRoom`: fresh id, `status: "waiting"`,
`maxPlayers: room.maxPlayers || 8`, `currentPlayers: 1` ("host is first
player"), `createdAt: new Date()`. -/
def createGameRoom (s : ServerState) (name hostId : String)
    (maxPlayers : Option Int) : GameRoom × ServerState :=
  let id := freshId s.nextId
  let room : GameRoom :=
    { id := id, name := name, hostId := hostId, status := "waiting"
      maxPlayers := jsOrDefault maxPlayers 8
      currentPlayers := 1
      createdAt := s.nextId }
  (room, { s with gameRooms := jmSet s.gameRooms id room,
                  nextId := s.nextId + 1 })

/-- `MemStorage.addParticipant`: insert a fresh participant row, then, if
the room exists, `room.currentPlayers = (room.currentPlayers || 0) + 1`
(on integers `(x || 0) + 1 = x + 1`, since `0 || 0 = 0`). -/
def addParticipant (s : ServerState) (roomId userId : String) :
    GameParticipant × ServerState :=
  let id := freshId s.nextId
  let p : GameParticipant :=
    { id := id, roomId := roomId, userId := userId, joinedAt := s.nextId }
  let parts := jmSet s.gameParticipants id p
  let rooms :=
    match jmGet s.gameRooms roomId with
    | some room =>
        jmSet s.gameRooms roomId
          { room with currentPlayers := room.currentPlayers + 1 }
    | none => s.gameRooms
  (p, { s with gameParticipants := parts, gameRooms := rooms,
               nextId := s.nextId + 1 })

/-- The `.find(p => p.roomId === roomId && p.userId === userId)` over
`gameParticipants.values()` used by `MemStorage.removeParticipant`. -/
def findParticipantRow (s : ServerState) (roomId userId : String) :
    Option GameParticipant :=
  (s.gameParticipants.map Prod.snd).find?
    (fun p => p.roomId == roomId && p.userId == userId)

/-- `MemStorage.removeParticipant`: if a matching row exists, delete it
and, if the room exists, `currentPlayers = Math.max(0, currentPlayers - 1)`;
otherwise do nothing. -/
def removeParticipant (s : ServerState) (roomId userId : String) :
    ServerState :=
  match findParticipantRow s roomId userId with
  | none => s
  | some p =>
      let parts := jmDelete s.gameParticipants p.id
      let rooms :=
        match jmGet s.gameRooms roomId with
        | some room =>
            jmSet s.gameRooms roomId
              { room with currentPlayers := max 0 (room.currentPlayers - 1) }
        | none => s.gameRooms
      { s with gameParticipants := parts, gameRooms := rooms }

/-- The comparator `(a, b) => b.createdAt - a.createdAt` of
`MemStorage.getGameRooms` as an ordering relation: newest first. -/
def roomLe (a b : GameRoom) : Prop := b.createdAt ≤ a.createdAt

instance : DecidableRel roomLe := fun a b => by
  unfold roomLe; infer_instance

instance : IsTotal GameRoom roomLe :=
  ⟨fun a b => le_total b.createdAt a.createdAt⟩

instance : IsTrans GameRoom roomLe :=
  ⟨fun _ _ _ h1 h2 => le_trans h2 h1⟩

/-- `MemStorage.getGameRooms`: values filtered to `status === "waiting"`,
sorted newest-first.  JS `Array.sort` with a consistent comparator yields
a stable sorted permutation, modelled by insertion sort on `roomLe`. -/
def getGameRooms (s : ServerState) : List GameRoom :=
  List.insertionSort roomLe
    ((s.gameRooms.map Prod.snd).filter (fun r => r.status == "waiting"))

/-- Inbound client messages (the `switch (type)` of the ws handler).
`Option` fields model absent or non-string/non-numeric payload fields;
an empty `userId` models the JS-falsy check `!data.userId`. -/
inductive ClientMsg where
  | join_lobby (userId : String)
  | create_room (userId : String) (roomName : Option String)
      (maxPlayers : Option Int)
  | join_room (roomId userId : Option String)
  | leave_room (userId : String)
  | get_rooms
deriving DecidableEq

/-- Outbound server messages.  `room_joined` carries `Option GameRoom`:
`JSON.stringify({type:'room_joined', room: undefined})` drops the key, so
`none` models a reply with no room record. -/
inductive ServerMsg where
  | lobby_joined (userId : String)
  | room_created (room : GameRoom)
  | room_joined (room : Option GameRoom)
  | room_left
  | player_joined (userId : String)
  | player_left (userId : String)
  | rooms_list (rooms : List GameRoom)
  | room_list_updated
  | error (message : String)
deriving DecidableEq

/-- `broadcastToRoom`: send to every registry entry whose `roomId`
matches, skipping `excludeUserId`. -/
def broadcastToRoom (s : ServerState) (roomId : String) (msg : ServerMsg)
    (excludeUserId : Option String) : List (Nat × ServerMsg) :=
  s.connectedPlayers.filterMap (fun e =>
    if e.2.roomId == some roomId && some e.1 != excludeUserId then
      some (e.2.ws, msg)
    else none)

/-- `broadcastToLobby`: send to every registry entry with no room. -/
def broadcastToLobby (s : ServerState) (msg : ServerMsg) :
    List (Nat × ServerMsg) :=
  s.connectedPlayers.filterMap (fun e =>
    if e.2.roomId == none then some (e.2.ws, msg) else none)

/-- The room sent in `room_created`: the handler holds the object returned
by `createGameRoom`, which `addParticipant` then mutates in place (JS
aliasing), so the reply carries the post-join room as stored. -/
def handleMessage (s : ServerState) (ws : Nat) (msg : ClientMsg) :
    ServerState × List (Nat × ServerMsg) :=
  match msg with
  | .join_lobby userId =>
      if userId = "" then (s, [(ws, .error "Invalid userId")])
      else
        let reg := jmSet s.connectedPlayers userId
          { ws := ws, userId := userId, roomId := none }
        ({ s with connectedPlayers := reg }, [(ws, .lobby_joined userId)])
  | .create_room userId roomName maxPlayers =>
      if userId = "" then (s, [(ws, .error "Failed to create room")])
      else
        let nm := match roomName with
          | some n => String.mk (n.data.take 80)   -- roomName.slice(0, 80)
          | none => "Room"
        let mp := max 2 (min (jsOrDefault maxPlayers 8) 16)
        let rs := createGameRoom s nm userId (some mp)
        let room := rs.1
        let s2 := (addParticipant rs.2 room.id userId).2
        let s3 :=
          match jmGet s2.connectedPlayers userId with
          | some p =>
              let reg := jmSet s2.connectedPlayers userId { p with roomId := some room.id }
              { s2 with connectedPlayers := reg }
          | none => s2
        let sentRoom := (jmGet s3.gameRooms room.id).getD room
        (s3, (ws, .room_created sentRoom) ::
              broadcastToLobby s3 .room_list_updated)
  | .join_room roomId? userId? =>
      match roomId?, userId? with
      | some roomId, some userId =>
          let s1 := (addParticipant s roomId userId).2
          let s2 :=
            match jmGet s1.connectedPlayers userId with
            | some p =>
                let reg := jmSet s1.connectedPlayers userId { p with roomId := some roomId }
                { s1 with connectedPlayers := reg }
            | none => s1
          (s2, (ws, .room_joined (jmGet s2.gameRooms roomId)) ::
                broadcastToRoom s2 roomId (.player_joined userId) (some userId)
                ++ broadcastToLobby s2 .room_list_updated)
      | _, _ => (s, [(ws, .error "Failed to join room")])
  | .leave_room userId =>
      match jmGet s.connectedPlayers userId with
      | some p =>
          match p.roomId with
          | some rid =>
              let s1 := removeParticipant s rid userId
              let roomSends :=
                broadcastToRoom s1 rid (.player_left userId) (some userId)
              let reg := jmSet s1.connectedPlayers userId { p with roomId := none }
              let s2 := { s1 with connectedPlayers := reg }
              (s2, roomSends ++ [(ws, .room_left)]
                    ++ broadcastToLobby s2 .room_list_updated)
          | none => (s, [])
      | none => (s, [])
  | .get_rooms => (s, [(ws, .rooms_list (getGameRooms s))])

/-- The `for ... of connectedPlayers.entries()` search with `break` of the
close handler: first entry whose socket is the closed one. -/
def findByWs (m : List (String × Player)) (w : Nat) :
    Option (String × Player) :=
  match m with
  | [] => none
  | (uid, p) :: rest =>
      if p.ws = w then some (uid, p) else findByWs rest w

/-- The `ws.on('close', ...)` handler: find the first registry entry for
the closed socket; if it was in a room, leave it and notify the room
(while the entry is still registered, excluded by userId); delete the
entry; notify the lobby. -/
def handleClose (s : ServerState) (w : Nat) :
    ServerState × List (Nat × ServerMsg) :=
  match findByWs s.connectedPlayers w with
  | none => (s, [])
  | some (uid, p) =>
      match p.roomId with
      | some rid =>
          let s1 := removeParticipant s rid uid
          let roomSends :=
            broadcastToRoom s1 rid (.player_left uid) (some uid)
          let s2 := { s1 with connectedPlayers := jmDelete s1.connectedPlayers uid }
          (s2, roomSends ++ broadcastToLobby s2 .room_list_updated)
      | none =>
          let s2 := { s with connectedPlayers := jmDelete s.connectedPlayers uid }
          (s2, broadcastToLobby s2 .room_list_updated)

/-- A transport event handled to completion by the coordinator. -/
inductive Event where
  | message (ws : Nat) (msg : ClientMsg)
  | close (ws : Nat)
deriving DecidableEq

def step (s : ServerState) : Event → ServerState × List (Nat × ServerMsg)
  | .message w m => handleMessage s w m
  | .close w => handleClose s w

def stepState (s : ServerState) (e : Event) : ServerState := (step s e).1

def runEvents (s : ServerState) (es : List Event) : ServerState :=
  es.foldl stepState s

/-- The server's start state: empty maps (no `data/users.json`). -/
def initState : ServerState :=
  { gameRooms := [], gameParticipants := [], connectedPlayers := [],
    nextId := 0 }

/-- The participant rows of a room, in insertion order. -/
def participantsOf (s : ServerState) (roomId : String) :
    List GameParticipant :=
  (s.gameParticipants.map Prod.snd).filter (fun p => p.roomId == roomId)

end Quiz

namespace Quiz

/-! ### Concrete behaviour of the coordinator at the claim-deciding inputs -/

/-- Claim C1.  On the trace `join_lobby{userId:"u1"}` then
`create_room{userId:"u1", roomName:"Trivia Night", maxPlayers:4}` from the
start state, the created room ends with `currentPlayers = 2` while exactly
one Participant row (the creator's) exists for it: `createGameRoom` seeds
the counter at 1 ("host is first player") and the handler then joins the
host via `addParticipant`, incrementing again, so the spec invariant
`currentPlayers == |participants|` (and `currentPlayers = 1` right after
create) fails on the code. -/
theorem create_room_double_counts_host :
    (jmGet (runEvents initState
        [ .message 0 (.join_lobby "u1"),
          .message 0 (.create_room "u1" (some "Trivia Night") (some 4)) ]).gameRooms
      "id0").map GameRoom.currentPlayers = some 2 ∧
    (participantsOf (runEvents initState
        [ .message 0 (.join_lobby "u1"),
          .message 0 (.create_room "u1" (some "Trivia Night") (some 4)) ]) "id0").length
      = 1 := by
  decide

/-- Claim C3.  After `u2` joins room `id0` twice (while the first
membership is still live), two Participant rows exist for the pair
`(id0, u2)` and `currentPlayers` was incremented both times (2 on create,
+1 and +1 for the two joins = 4): neither `addParticipant` nor the
`join_room` handler checks for an existing membership, contradicting the
spec's at-most-one-row-per-(roomId, userId) invariant. -/
theorem duplicate_join_duplicates_participant :
    ((participantsOf (runEvents initState
        [ .message 0 (.join_lobby "u1"),
          .message 0 (.create_room "u1" (some "R") (some 8)),
          .message 1 (.join_lobby "u2"),
          .message 1 (.join_room (some "id0") (some "u2")),
          .message 1 (.join_room (some "id0") (some "u2")) ]) "id0").filter
      (fun p => p.userId == "u2")).length = 2 ∧
    (jmGet (runEvents initState
        [ .message 0 (.join_lobby "u1"),
          .message 0 (.create_room "u1" (some "R") (some 8)),
          .message 1 (.join_lobby "u2"),
          .message 1 (.join_room (some "id0") (some "u2")),
          .message 1 (.join_room (some "id0") (some "u2")) ]).gameRooms
      "id0").map GameRoom.currentPlayers = some 4 := by
  decide

/-- Claim C4.  Scenario 1 (A = ws 0 registers u1, B = ws 1 registers u2,
A creates "Trivia Night" with maxPlayers 4): the step's outputs are
exactly a direct `room_created` reply to A and a `room_list_updated` to
the lobby connection B.  Status is `"waiting"` and `maxPlayers` is the
clamped 4 as claimed, but the room record in the reply carries
`currentPlayers = 2`, not 1: the handler's room object is the same JS
object `addParticipant` mutates, so the double-counted value is sent. -/
theorem create_room_reply_and_lobby_broadcast :
    (step (runEvents initState
        [ .message 0 (.join_lobby "u1"), .message 1 (.join_lobby "u2") ])
      (.message 0 (.create_room "u1" (some "Trivia Night") (some 4)))).2 =
    [ (0, .room_created
        { id := "id0", name := "Trivia Night", hostId := "u1",
          status := "waiting", maxPlayers := 4, currentPlayers := 2,
          createdAt := 0 }),
      (1, .room_list_updated) ] := by
  decide

/-- Claim C2, counterexample.  A room at `currentPlayers = maxPlayers = 2`
(u1's freshly created 2-cap room, already "full" by the double count)
receives `join_room` from u2: the requester (ws 1) is answered with
`room_joined`, not `error`, and the room's counter is pushed to
`3 > maxPlayers = 2` — the coordinator has no capacity check at all. -/
theorem join_full_room_not_rejected :
    (jmGet (runEvents initState
        [ .message 0 (.join_lobby "u1"),
          .message 0 (.create_room "u1" (some "R") (some 2)),
          .message 1 (.join_lobby "u2") ]).gameRooms "id0").map
      (fun r => (r.currentPlayers, r.maxPlayers)) = some (2, 2) ∧
    (step (runEvents initState
        [ .message 0 (.join_lobby "u1"),
          .message 0 (.create_room "u1" (some "R") (some 2)),
          .message 1 (.join_lobby "u2") ])
      (.message 1 (.join_room (some "id0") (some "u2")))).2.head? =
      some (1, .room_joined (some
        { id := "id0", name := "R", hostId := "u1", status := "waiting",
          maxPlayers := 2, currentPlayers := 3, createdAt := 0 })) ∧
    (jmGet (step (runEvents initState
        [ .message 0 (.join_lobby "u1"),
          .message 0 (.create_room "u1" (some "R") (some 2)),
          .message 1 (.join_lobby "u2") ])
      (.message 1 (.join_room (some "id0") (some "u2")))).1.gameRooms
      "id0").map GameRoom.currentPlayers = some 3 := by
  decide

/-- Claim C5, counterexample.  A lobby-registered connection (u1, not in
any room) sends `leave_room`: the coordinator sends nothing at all — in
particular no `error` reply — and leaves the state unchanged; the
`if (player?.roomId)` guard has no else branch. -/
theorem leave_room_no_error_reply :
    (step (runEvents initState [ .message 0 (.join_lobby "u1") ])
      (.message 0 (.leave_room "u1"))).2 = [] ∧
    (step (runEvents initState [ .message 0 (.join_lobby "u1") ])
      (.message 0 (.leave_room "u1"))).1 =
      runEvents initState [ .message 0 (.join_lobby "u1") ] := by
  decide

/-- Claim C9, counterexample.  ws 0 registers userId "u1", then ws 1
registers the same "u1": the registry — a map keyed by userId — ends with
a single entry for "u1" pointing at ws 1; the first connection's entry
has been overwritten, not kept as an independent entry. -/
theorem second_join_lobby_overwrites :
    (runEvents initState
      [ .message 0 (.join_lobby "u1"),
        .message 1 (.join_lobby "u1") ]).connectedPlayers =
    [("u1", { ws := 1, userId := "u1", roomId := none })] := by
  decide

end Quiz

namespace Quiz

/-! ### Map lemmas -/

theorem jmGet_jmSet_self {α : Type} (m : List (String × α)) (k : String)
    (v : α) : jmGet (jmSet m k v) k = some v := by
  induction m with
  | nil => simp [jmSet, jmGet]
  | cons e t ih =>
      obtain ⟨k', v'⟩ := e
      by_cases hk : k' = k
      · simp [jmSet, jmGet, hk]
      · simp [jmSet, jmGet, hk, ih]

theorem jmGet_mem {α : Type} {m : List (String × α)} {k : String} {v : α}
    (h : jmGet m k = some v) : (k, v) ∈ m := by
  induction m with
  | nil => simp [jmGet] at h
  | cons e t ih =>
      obtain ⟨k', v'⟩ := e
      by_cases hk : k' = k
      · subst hk
        simp [jmGet] at h
        simp [h]
      · simp [jmGet, hk] at h
        exact List.mem_cons_of_mem _ (ih h)

theorem mem_jmSet {α : Type} {m : List (String × α)} {k : String} {v : α}
    {x : String × α} (h : x ∈ jmSet m k v) : x = (k, v) ∨ x ∈ m := by
  induction m with
  | nil => simp [jmSet] at h; simp [h]
  | cons e t ih =>
      obtain ⟨k', v'⟩ := e
      by_cases hk : k' = k
      · subst hk
        simp [jmSet] at h
        rcases h with h | h
        · exact Or.inl (by simp [h])
        · exact Or.inr (List.mem_cons_of_mem _ h)
      · simp [jmSet, hk] at h
        rcases h with h | h
        · exact Or.inr (by simp [h])
        · rcases ih h with h' | h'
          · exact Or.inl h'
          · exact Or.inr (List.mem_cons_of_mem _ h')

/-! ### General theorems for the claims -/

/-- Claim C7.  `get_rooms` is a pure read: the state is returned
untouched, and the reply to the requester is exactly the list of rooms
with status `"waiting"` (a permutation of the filtered room values, i.e.
the same multiset) sorted newest-first by `createdAt`. -/
theorem get_rooms_pure_sorted (s : ServerState) (w : Nat) :
    handleMessage s w .get_rooms = (s, [(w, .rooms_list (getGameRooms s))]) ∧
    (getGameRooms s).Perm
      ((s.gameRooms.map Prod.snd).filter (fun r => r.status == "waiting")) ∧
    List.Sorted roomLe (getGameRooms s) :=
  ⟨rfl, List.perm_insertionSort roomLe _, List.sorted_insertionSort roomLe _⟩

/-- Claim C2 (amended).  The coordinator applies `join_room` to any
existing room unconditionally — no capacity (or status) check: the
Participant insert runs, `currentPlayers` is incremented regardless of
`maxPlayers`, and the requester is answered with `room_joined`, never
`error`.  Capacity is enforced only client-side before the message is
sent. -/
theorem join_room_applied_unconditionally (s : ServerState) (w : Nat)
    (roomId userId : String) (room : GameRoom)
    (h : jmGet s.gameRooms roomId = some room) :
    jmGet (handleMessage s w
        (.join_room (some roomId) (some userId))).1.gameRooms roomId =
      some { room with currentPlayers := room.currentPlayers + 1 } ∧
    (handleMessage s w (.join_room (some roomId) (some userId))).2.head? =
      some (w, .room_joined
        (some { room with currentPlayers := room.currentPlayers + 1 })) := by
  simp only [handleMessage, addParticipant, h]
  constructor
  · split <;> exact jmGet_jmSet_self ..
  · split <;> simp [jmGet_jmSet_self]

/-- Claim C5 (amended).  A `leave_room` from a connection whose registry
entry has no current room (or that has no registry entry at all) is a
complete no-op: the coordinator sends no reply whatsoever — in
particular no `error` — and changes no repository, registry or broadcast
state. -/
theorem leave_room_silent_when_not_in_room (s : ServerState) (w : Nat)
    (userId : String)
    (h : ∀ p, jmGet s.connectedPlayers userId = some p → p.roomId = none) :
    handleMessage s w (.leave_room userId) = (s, []) := by
  simp only [handleMessage]
  split
  · next p hp =>
      have hr := h p hp
      simp [hr]
  · rfl

/-- Claim C9 (amended).  The registry is keyed by userId: `join_lobby`
with an already-registered userId overwrites that userId's single entry
with the new connection's handle (detaching the first connection's
tracking), so at most one registry entry per userId ever exists. -/
theorem join_lobby_overwrites_per_userId (s : ServerState) (w : Nat)
    (u : String) (h : u ≠ "") :
    (handleMessage s w (.join_lobby u)).1.connectedPlayers =
      jmSet s.connectedPlayers u { ws := w, userId := u, roomId := none } ∧
    jmGet (handleMessage s w (.join_lobby u)).1.connectedPlayers u =
      some { ws := w, userId := u, roomId := none } := by
  constructor
  · simp [handleMessage, if_neg h]
  · simp [handleMessage, if_neg h, jmGet_jmSet_self]

end Quiz

namespace Quiz

theorem join_room_applied_unconditionally_witness :
    jmGet (handleMessage
        { gameRooms := [("r0",
            { id := "r0", name := "Room", hostId := "u1",
              status := "waiting", maxPlayers := 2, currentPlayers := 2,
              createdAt := 0 })],
          gameParticipants := [], connectedPlayers := [], nextId := 7 }
        5 (.join_room (some "r0") (some "u2"))).1.gameRooms "r0" =
      some { id := "r0", name := "Room", hostId := "u1",
             status := "waiting", maxPlayers := 2, currentPlayers := 2 + 1,
             createdAt := 0 } ∧
    (handleMessage
        { gameRooms := [("r0",
            { id := "r0", name := "Room", hostId := "u1",
              status := "waiting", maxPlayers := 2, currentPlayers := 2,
              createdAt := 0 })],
          gameParticipants := [], connectedPlayers := [], nextId := 7 }
        5 (.join_room (some "r0") (some "u2"))).2.head? =
      some (5, .room_joined (some
        { id := "r0", name := "Room", hostId := "u1",
          status := "waiting", maxPlayers := 2, currentPlayers := 2 + 1,
          createdAt := 0 })) :=
  join_room_applied_unconditionally
    { gameRooms := [("r0",
        { id := "r0", name := "Room", hostId := "u1",
          status := "waiting", maxPlayers := 2, currentPlayers := 2,
          createdAt := 0 })],
      gameParticipants := [], connectedPlayers := [], nextId := 7 }
    5 "r0" "u2"
    { id := "r0", name := "Room", hostId := "u1",
      status := "waiting", maxPlayers := 2, currentPlayers := 2,
      createdAt := 0 }
    (by decide)

theorem leave_room_silent_when_not_in_room_witness :
    handleMessage
        { gameRooms := [], gameParticipants := [],
          connectedPlayers := [("u1",
            { ws := 0, userId := "u1", roomId := none })],
          nextId := 2 }
        0 (.leave_room "u1") =
      ({ gameRooms := [], gameParticipants := [],
         connectedPlayers := [("u1",
           { ws := 0, userId := "u1", roomId := none })],
         nextId := 2 }, []) :=
  leave_room_silent_when_not_in_room _ 0 "u1" (by
    intro p hp
    simp [jmGet] at hp
    simp [← hp])

theorem join_lobby_overwrites_per_userId_witness :
    (handleMessage
        { gameRooms := [], gameParticipants := [],
          connectedPlayers := [("u1",
            { ws := 0, userId := "u1", roomId := none })],
          nextId := 2 }
        3 (.join_lobby "u1")).1.connectedPlayers =
      jmSet [("u1", { ws := 0, userId := "u1", roomId := none })] "u1"
        { ws := 3, userId := "u1", roomId := none } ∧
    jmGet (handleMessage
        { gameRooms := [], gameParticipants := [],
          connectedPlayers := [("u1",
            { ws := 0, userId := "u1", roomId := none })],
          nextId := 2 }
        3 (.join_lobby "u1")).1.connectedPlayers "u1" =
      some { ws := 3, userId := "u1", roomId := none } :=
  join_lobby_overwrites_per_userId _ 3 "u1" (by decide)

end Quiz

namespace Quiz

theorem broadcastToRoom_snd {s : ServerState} {rid : String}
    {m : ServerMsg} {e : Option String} {x : Nat × ServerMsg}
    (h : x ∈ broadcastToRoom s rid m e) : x.2 = m := by
  simp only [broadcastToRoom, List.mem_filterMap] at h
  obtain ⟨a, _, hx⟩ := h
  split at hx
  · cases hx; rfl
  · cases hx

theorem broadcastToLobby_snd {s : ServerState} {m : ServerMsg}
    {x : Nat × ServerMsg} (h : x ∈ broadcastToLobby s m) : x.2 = m := by
  simp only [broadcastToLobby, List.mem_filterMap] at h
  obtain ⟨a, _, hx⟩ := h
  split at hx
  · cases hx; rfl
  · cases hx

/-- Claim C10.  A `join_room` whose roomId names no existing room is not
answered with an error: the participant row is inserted under the
nonexistent roomId anyway, no room record is touched (the counter update
is guarded by the room lookup), and the requester receives `room_joined`
carrying no room record; no message of the step is an `error`. -/
theorem join_nonexistent_room_quiet (s : ServerState) (w : Nat)
    (roomId userId : String) (h : jmGet s.gameRooms roomId = none) :
    (handleMessage s w
        (.join_room (some roomId) (some userId))).1.gameRooms =
      s.gameRooms ∧
    (handleMessage s w
        (.join_room (some roomId) (some userId))).1.gameParticipants =
      jmSet s.gameParticipants (freshId s.nextId)
        { id := freshId s.nextId, roomId := roomId, userId := userId,
          joinedAt := s.nextId } ∧
    (handleMessage s w (.join_room (some roomId) (some userId))).2.head? =
      some (w, .room_joined none) ∧
    (∀ x ∈ (handleMessage s w
        (.join_room (some roomId) (some userId))).2,
      ∀ msg, x.2 ≠ ServerMsg.error msg) := by
  refine ⟨?_, ?_, ?_, ?_⟩
  · simp only [handleMessage, addParticipant, h]
    split <;> rfl
  · simp only [handleMessage, addParticipant, h]
    split <;> rfl
  · simp only [handleMessage, addParticipant, h]
    split <;> simp [h]
  · intro x hx msg
    simp only [handleMessage, addParticipant, h] at hx
    have hsplit : x.2 = ServerMsg.room_joined none ∨
        x.2 = ServerMsg.player_joined userId ∨
        x.2 = ServerMsg.room_list_updated := by
      revert hx
      split <;>
        · intro hx
          rcases List.mem_cons.mp hx with hx | hx
          · subst hx
            left
            simp [h]
          · rcases List.mem_append.mp hx with hx | hx
            · exact Or.inr (Or.inl (broadcastToRoom_snd hx))
            · exact Or.inr (Or.inr (broadcastToLobby_snd hx))
    rcases hsplit with h2 | h2 | h2 <;> simp [h2]

theorem join_nonexistent_room_quiet_witness :
    (handleMessage initState 0
        (.join_room (some "nowhere") (some "u9"))).1.gameRooms = [] ∧
    (handleMessage initState 0
        (.join_room (some "nowhere") (some "u9"))).1.gameParticipants =
      jmSet [] (freshId 0)
        { id := freshId 0, roomId := "nowhere", userId := "u9",
          joinedAt := 0 } ∧
    (handleMessage initState 0
        (.join_room (some "nowhere") (some "u9"))).2.head? =
      some (0, .room_joined none) ∧
    (∀ x ∈ (handleMessage initState 0
        (.join_room (some "nowhere") (some "u9"))).2,
      ∀ msg, x.2 ≠ ServerMsg.error msg) :=
  join_nonexistent_room_quiet initState 0 "nowhere" "u9" (by decide)

end Quiz

namespace Quiz

/-- All room counters in a room map are nonnegative. -/
def nonnegRooms (l : List (String × GameRoom)) : Prop :=
  ∀ x ∈ l, 0 ≤ x.2.currentPlayers

theorem nonnegRooms_createGameRoom {s : ServerState} {nm host : String}
    {mp : Option Int} (h : nonnegRooms s.gameRooms) :
    nonnegRooms (createGameRoom s nm host mp).2.gameRooms := by
  intro x hx
  rcases mem_jmSet hx with hx | hx
  · subst hx; norm_num
  · exact h x hx

theorem nonnegRooms_addParticipant {s : ServerState} {rid uid : String}
    (h : nonnegRooms s.gameRooms) :
    nonnegRooms (addParticipant s rid uid).2.gameRooms := by
  intro x hx
  simp only [addParticipant] at hx
  revert hx
  split
  · next room hr =>
      intro hx
      rcases mem_jmSet hx with hx | hx
      · subst hx
        have := h _ (jmGet_mem hr)
        simp only at this ⊢
        omega
      · exact h x hx
  · exact h x

theorem nonnegRooms_removeParticipant {s : ServerState} {rid uid : String}
    (h : nonnegRooms s.gameRooms) :
    nonnegRooms (removeParticipant s rid uid).gameRooms := by
  intro x hx
  simp only [removeParticipant] at hx
  revert hx
  split
  · exact h x
  · split
    · intro hx
      rcases mem_jmSet hx with hx | hx
      · subst hx
        simp only
        exact le_max_left 0 _
      · exact h x hx
    · exact h x

theorem nonnegRooms_handleMessage {s : ServerState} {w : Nat}
    {m : ClientMsg} (h : nonnegRooms s.gameRooms) :
    nonnegRooms (handleMessage s w m).1.gameRooms := by
  cases m with
  | join_lobby uid =>
      simp only [handleMessage]
      split <;> exact h
  | create_room uid nm mp =>
      simp only [handleMessage]
      split
      · exact h
      · split
        · exact @nonnegRooms_addParticipant _ _ uid
            (nonnegRooms_createGameRoom h)
        · exact @nonnegRooms_addParticipant _ _ uid
            (nonnegRooms_createGameRoom h)
  | join_room rid? uid? =>
      simp only [handleMessage]
      split
      · next rid uid =>
          split
          · exact @nonnegRooms_addParticipant _ _ uid h
          · exact @nonnegRooms_addParticipant _ _ uid h
      · exact h
  | leave_room uid =>
      simp only [handleMessage]
      split
      · split
        · exact nonnegRooms_removeParticipant h
        · exact h
      · exact h
  | get_rooms => exact h

theorem nonnegRooms_handleClose {s : ServerState} {w : Nat}
    (h : nonnegRooms s.gameRooms) :
    nonnegRooms (handleClose s w).1.gameRooms := by
  simp only [handleClose]
  split
  · exact h
  · split
    · exact nonnegRooms_removeParticipant h
    · exact h

theorem nonnegRooms_runEvents {s : ServerState} (es : List Event)
    (h : nonnegRooms s.gameRooms) :
    nonnegRooms (runEvents s es).gameRooms := by
  induction es generalizing s with
  | nil => exact h
  | cons e t ih =>
      refine ih ?_
      cases e with
      | message w m => exact nonnegRooms_handleMessage h
      | close w => exact nonnegRooms_handleClose h

/-- Claim C8.  Over every event sequence from the start state every
room's `currentPlayers` stays nonnegative; `removeParticipant` for a
(roomId, userId) with no matching Participant row changes nothing (in
particular, no decrement), and when a row exists the room's counter is
decremented with a floor of zero. -/
theorem currentPlayers_never_negative :
    (∀ es : List Event, ∀ x ∈ (runEvents initState es).gameRooms,
      0 ≤ x.2.currentPlayers) ∧
    (∀ (s : ServerState) (roomId userId : String),
      findParticipantRow s roomId userId = none →
      removeParticipant s roomId userId = s) ∧
    (∀ (s : ServerState) (roomId userId : String) (p : GameParticipant)
      (room : GameRoom),
      findParticipantRow s roomId userId = some p →
      jmGet s.gameRooms roomId = some room →
      jmGet (removeParticipant s roomId userId).gameRooms roomId =
        some { room with
               currentPlayers := max 0 (room.currentPlayers - 1) }) := by
  refine ⟨?_, ?_, ?_⟩
  · intro es
    exact nonnegRooms_runEvents es (by intro x hx; cases hx)
  · intro s roomId userId hnone
    simp [removeParticipant, hnone]
  · intro s roomId userId p room hp hr
    simp [removeParticipant, hp, hr, jmGet_jmSet_self]

theorem currentPlayers_never_negative_witness :
    (0:Int) ≤ (("id0",
      GameRoom.mk "id0" "R" "u1" "waiting" 8 2 0) :
        String × GameRoom).2.currentPlayers ∧
    removeParticipant initState "r" "u" = initState ∧
    jmGet (removeParticipant
        { gameRooms := [("r0",
            { id := "r0", name := "R", hostId := "u1",
              status := "waiting", maxPlayers := 8, currentPlayers := 1,
              createdAt := 0 })],
          gameParticipants := [("q0",
            { id := "q0", roomId := "r0", userId := "u1",
              joinedAt := 1 })],
          connectedPlayers := [], nextId := 2 }
        "r0" "u1").gameRooms "r0" =
      some { id := "r0", name := "R", hostId := "u1",
             status := "waiting", maxPlayers := 8,
             currentPlayers := max 0 (1 - 1), createdAt := 0 } :=
  ⟨currentPlayers_never_negative.1
      [ .message 0 (.join_lobby "u1"),
        .message 0 (.create_room "u1" (some "R") (some 8)) ]
      ("id0", GameRoom.mk "id0" "R" "u1" "waiting" 8 2 0) (by decide),
   currentPlayers_never_negative.2.1 initState "r" "u" (by decide),
   currentPlayers_never_negative.2.2
      { gameRooms := [("r0",
          { id := "r0", name := "R", hostId := "u1",
            status := "waiting", maxPlayers := 8, currentPlayers := 1,
            createdAt := 0 })],
        gameParticipants := [("q0",
          { id := "q0", roomId := "r0", userId := "u1",
            joinedAt := 1 })],
        connectedPlayers := [], nextId := 2 }
      "r0" "u1"
      { id := "q0", roomId := "r0", userId := "u1", joinedAt := 1 }
      { id := "r0", name := "R", hostId := "u1", status := "waiting",
        maxPlayers := 8, currentPlayers := 1, createdAt := 0 }
      (by decide) (by decide)⟩

end Quiz

namespace Quiz

theorem findByWs_ws {m : List (String × Player)} {w : Nat} {uid : String}
    {p : Player} (h : findByWs m w = some (uid, p)) : p.ws = w := by
  induction m with
  | nil => simp [findByWs] at h
  | cons e t ih =>
      obtain ⟨k, v⟩ := e
      by_cases hw : v.ws = w
      · simp only [findByWs, if_pos hw, Option.some.injEq] at h
        obtain ⟨rfl, rfl⟩ := Prod.mk.injEq .. ▸ h
        exact hw
      · simp only [findByWs, if_neg hw] at h
        exact ih h

theorem findByWs_jmSet {m : List (String × Player)} {w : Nat}
    {uid : String} {p p' : Player}
    (h1 : findByWs m w = some (uid, p))
    (h2 : jmGet m uid = some p) (hws : p'.ws = w) :
    findByWs (jmSet m uid p') w = some (uid, p') := by
  induction m with
  | nil => simp [findByWs] at h1
  | cons e t ih =>
      obtain ⟨k, v⟩ := e
      by_cases hw : v.ws = w
      · simp only [findByWs, if_pos hw, Option.some.injEq] at h1
        obtain ⟨rfl, rfl⟩ := Prod.mk.injEq .. ▸ h1
        simp [jmSet, findByWs, hws]
      · simp only [findByWs, if_neg hw] at h1
        have hk : k ≠ uid := by
          intro hk
          rw [jmGet, if_pos hk] at h2
          obtain rfl := Option.some.injEq .. ▸ h2
          exact hw (findByWs_ws h1)
        rw [jmGet, if_neg hk] at h2
        rw [jmSet, if_neg hk]
        rw [findByWs, if_neg hw]
        exact ih h1 h2

theorem removeParticipant_connectedPlayers (s : ServerState)
    (rid uid : String) :
    (removeParticipant s rid uid).connectedPlayers = s.connectedPlayers := by
  unfold removeParticipant
  split
  · rfl
  · rfl

/-- Claim C6.  For a connection `w` registered (first, under userId
`uid`) while in room `rid`, closing the transport leaves the repository
(`gameRooms` and `gameParticipants`) in exactly the state it has after
the connection first processes an explicit `leave_room` and then closes:
both paths run `removeParticipant rid uid` once on the repository, and
the second path's close finds the entry already out of any room. -/
theorem disconnect_equals_leave (s : ServerState) (w : Nat) (uid : String)
    (p : Player) (rid : String)
    (h1 : findByWs s.connectedPlayers w = some (uid, p))
    (h2 : jmGet s.connectedPlayers uid = some p)
    (h3 : p.roomId = some rid) :
    (handleClose s w).1.gameRooms =
      (handleClose (handleMessage s w (.leave_room uid)).1 w).1.gameRooms ∧
    (handleClose s w).1.gameParticipants =
      (handleClose
        (handleMessage s w (.leave_room uid)).1 w).1.gameParticipants := by
  have hws : p.ws = w := findByWs_ws h1
  -- the leave_room step: repository leave + registry entry set to no-room
  have hmsg : (handleMessage s w (.leave_room uid)).1 =
      { removeParticipant s rid uid with
        connectedPlayers :=
          jmSet (removeParticipant s rid uid).connectedPlayers uid
            { p with roomId := none } } := by
    simp [handleMessage, h2, h3]
  -- the close on the original state: repository leave + registry delete
  have hcloseA : (handleClose s w).1 =
      { removeParticipant s rid uid with
        connectedPlayers :=
          jmDelete (removeParticipant s rid uid).connectedPlayers uid } := by
    simp [handleClose, h1, h3]
  -- the close after the leave finds the entry with no room
  have hfind2 : findByWs (handleMessage s w
      (.leave_room uid)).1.connectedPlayers w =
      some (uid, { p with roomId := none }) := by
    rw [hmsg]
    show findByWs (jmSet (removeParticipant s rid uid).connectedPlayers uid
      { p with roomId := none }) w = _
    rw [removeParticipant_connectedPlayers]
    exact findByWs_jmSet h1 h2 hws
  have hcloseB : (handleClose (handleMessage s w
      (.leave_room uid)).1 w).1 =
      { (handleMessage s w (.leave_room uid)).1 with
        connectedPlayers :=
          jmDelete (handleMessage s w
            (.leave_room uid)).1.connectedPlayers uid } := by
    simp [handleClose, hfind2]
  rw [hcloseA, hcloseB, hmsg]
  exact ⟨rfl, rfl⟩

theorem disconnect_equals_leave_witness :
    (handleClose
        { gameRooms := [("r0",
            { id := "r0", name := "R", hostId := "u1",
              status := "waiting", maxPlayers := 8, currentPlayers := 2,
              createdAt := 0 })],
          gameParticipants := [("q0",
            { id := "q0", roomId := "r0", userId := "u1",
              joinedAt := 1 })],
          connectedPlayers := [("u1",
            { ws := 0, userId := "u1", roomId := some "r0" })],
          nextId := 2 } 0).1.gameRooms =
      (handleClose (handleMessage
        { gameRooms := [("r0",
            { id := "r0", name := "R", hostId := "u1",
              status := "waiting", maxPlayers := 8, currentPlayers := 2,
              createdAt := 0 })],
          gameParticipants := [("q0",
            { id := "q0", roomId := "r0", userId := "u1",
              joinedAt := 1 })],
          connectedPlayers := [("u1",
            { ws := 0, userId := "u1", roomId := some "r0" })],
          nextId := 2 } 0 (.leave_room "u1")).1 0).1.gameRooms ∧
    (handleClose
        { gameRooms := [("r0",
            { id := "r0", name := "R", hostId := "u1",
              status := "waiting", maxPlayers := 8, currentPlayers := 2,
              createdAt := 0 })],
          gameParticipants := [("q0",
            { id := "q0", roomId := "r0", userId := "u1",
              joinedAt := 1 })],
          connectedPlayers := [("u1",
            { ws := 0, userId := "u1", roomId := some "r0" })],
          nextId := 2 } 0).1.gameParticipants =
      (handleClose (handleMessage
        { gameRooms := [("r0",
            { id := "r0", name := "R", hostId := "u1",
              status := "waiting", maxPlayers := 8, currentPlayers := 2,
              createdAt := 0 })],
          gameParticipants := [("q0",
            { id := "q0", roomId := "r0", userId := "u1",
              joinedAt := 1 })],
          connectedPlayers := [("u1",
            { ws := 0, userId := "u1", roomId := some "r0" })],
          nextId := 2 } 0 (.leave_room "u1")).1 0).1.gameParticipants :=
  disconnect_equals_leave
    { gameRooms := [("r0",
        { id := "r0", name := "R", hostId := "u1",
          status := "waiting", maxPlayers := 8, currentPlayers := 2,
          createdAt := 0 })],
      gameParticipants := [("q0",
        { id := "q0", roomId := "r0", userId := "u1",
          joinedAt := 1 })],
      connectedPlayers := [("u1",
        { ws := 0, userId := "u1", roomId := some "r0" })],
      nextId := 2 }
    0 "u1" { ws := 0, userId := "u1", roomId := some "r0" } "r0"
    (by decide) (by decide) (by decide)

end Quiz
